import Mathlib

/-! Verification development for the restaurant-bot dialogue engine in
`src/main.py`: intent classification (`classify_intent`), the booking-slot
extractor (`extract_booking_details`), the booking handler
(`handle_booking`), the booking tool and its file store
(`CreateBookingTool._run` / `FileDataManager.save_booking`), and the menu
RAG query path (`MenuRAGSystem.query_menu`).

Python regular expressions are hand-compiled into explicit scanning
matchers over `List Char`, preserving leftmost-match semantics, greedy
`\d{1,2}` with backtracking, `\s` runs, and `\b` word boundaries exactly
where the source patterns have them. -/

/-! ### Character classes (ASCII semantics of Python `re` / `str`) -/

/-- Python `\s` on ASCII: space, tab, newline, carriage return, vertical tab, form feed. -/
def isWs (c : Char) : Bool :=
  c.toNat = 32 || c.toNat = 9 || c.toNat = 10 || c.toNat = 13 || c.toNat = 11 || c.toNat = 12

/-- Python `\d` / `str.isdigit` on ASCII. -/
def isDig (c : Char) : Bool :=
  48 ≤ c.toNat && c.toNat ≤ 57

/-- Python `\w` on ASCII: letters, digits, underscore. -/
def isWordChar (c : Char) : Bool :=
  isDig c || (97 ≤ c.toNat && c.toNat ≤ 122) || (65 ≤ c.toNat && c.toNat ≤ 90) || c.toNat = 95

/-- Python `str.lower` on ASCII. -/
def lowChar (c : Char) : Char :=
  if 65 ≤ c.toNat && c.toNat ≤ 90 then Char.ofNat (c.toNat + 32) else c

/-- Lowercased character list, the `text_lower = text.lower()` of the source. -/
def lowStr (s : List Char) : List Char := s.map lowChar

/-! ### Generic matcher combinators -/

/-- Consume the literal `w` at the head of `s`, returning the rest. -/
def leadLit : List Char → List Char → Option (List Char)
  | [], s => some s
  | _ :: _, [] => none
  | w :: ws, c :: cs => if c = w then leadLit ws cs else none

/-- Python substring test `w in s`. -/
def hasSub (w : List Char) : List Char → Bool
  | [] => (leadLit w []).isSome
  | s@(_ :: cs) => (leadLit w s).isSome || hasSub w cs

/-- Maximal run of `\s*`: drop leading whitespace. -/
def dropWsStar : List Char → List Char
  | [] => []
  | c :: cs => if isWs c then dropWsStar cs else c :: cs

/-- `\s+`: at least one whitespace character, maximal munch. -/
def wsPlus : List Char → Option (List Char)
  | [] => none
  | c :: cs => if isWs c then some (dropWsStar cs) else none

/-- Split off the maximal leading whitespace run (used where a match keeps its literal text). -/
def wsSplit : List Char → List Char × List Char
  | [] => ([], [])
  | c :: cs => if isWs c then ((c :: (wsSplit cs).1), (wsSplit cs).2) else ([], c :: cs)

/-- First alternative on which `f` succeeds, in list order (regex alternation order). -/
def firstSome {α β : Type} (f : α → Option β) : List α → Option β
  | [] => none
  | a :: as =>
    match f a with
    | some b => some b
    | none => firstSome f as

/-- Leftmost match: try `f` at every start position (`re.search` without `\b`). -/
def searchOpt {α : Type} (f : List Char → Option α) : List Char → Option α
  | [] => f []
  | s@(_ :: cs) =>
    match f s with
    | some a => some a
    | none => searchOpt f cs

/-- Word boundary after a word character: end of text or a non-word character. -/
def bOk : List Char → Bool
  | [] => true
  | c :: _ => !isWordChar c

/-- Leftmost match for a pattern opening with `\b`: `f` is tried only at
positions whose previous character is not a word character. -/
def searchOptB {α : Type} (f : List Char → Option α) : Bool → List Char → Option α
  | _, [] => none
  | false, c :: cs => searchOptB f (!isWordChar c) cs
  | true, s@(c :: cs) =>
    match f s with
    | some a => some a
    | none => searchOptB f (!isWordChar c) cs

/-- Numeric value of an ASCII digit. -/
def digVal (c : Char) : Nat := c.toNat - 48

/-- Python `int` of a digit string. -/
def natOfDigits (ds : List Char) : Nat := ds.foldl (fun a c => a * 10 + digVal c) 0

/-- Greedy `(\d{1,2})` with backtracking: the alternatives (captured digits,
rest) in the order the regex engine tries them (two digits first). -/
def digAlts : List Char → List (List Char × List Char)
  | [] => []
  | [c] => if isDig c then [([c], [])] else []
  | c1 :: c2 :: r =>
    if isDig c1 then
      if isDig c2 then [([c1, c2], r), ([c1], c2 :: r)] else [([c1], c2 :: r)]
    else []

/-- Exactly two digits, `(\d{2})`. -/
def twoDigits : List Char → Option (List Char × List Char)
  | c1 :: c2 :: r => if isDig c1 && isDig c2 then some ([c1, c2], r) else none
  | _ => none

/-- Number of words of Python `text.split()`; the Bool argument tracks whether
the previous character was whitespace (true at the start). -/
def wordCount : Bool → List Char → Nat
  | _, [] => 0
  | prevWs, c :: cs => (if prevWs && !isWs c then 1 else 0) + wordCount (isWs c) cs

/-- Python `text.strip()`. -/
def trim (s : List Char) : List Char :=
  (dropWsStar ((dropWsStar s).reverse)).reverse

/-! ### Party-size patterns of `extract_booking_details` (source lines 538-549)

The four patterns, in source order:
`party\s+of\s+(\d{1,2})`, `(?:for\s+)?(\d{1,2})\s*(?:people|person|pax|guests?)`,
`table\s+for\s+(\d{1,2})`, `^\s*(\d{1,2})\s*$`. -/

/-- Match `party\s+of\s+(\d{1,2})` at the current position. -/
def p1At (s : List Char) : Option Nat :=
  (leadLit ['p', 'a', 'r', 't', 'y'] s).bind fun r1 =>
  (wsPlus r1).bind fun r2 =>
  (leadLit ['o', 'f'] r2).bind fun r3 =>
  (wsPlus r3).bind fun r4 =>
  firstSome (fun p => some (natOfDigits p.1)) (digAlts r4)

/-- The suffix alternation `(?:people|person|pax|guests?)`: only success
matters here since the pattern captures the digits, not the suffix, and
matching `guest` decides success whether or not the optional `s` follows. -/
def sfxOk (s : List Char) : Bool :=
  (leadLit ['p', 'e', 'o', 'p', 'l', 'e'] s).isSome ||
  (leadLit ['p', 'e', 'r', 's', 'o', 'n'] s).isSome ||
  (leadLit ['p', 'a', 'x'] s).isSome ||
  (leadLit ['g', 'u', 'e', 's', 't'] s).isSome

/-- Match `(\d{1,2})\s*(?:people|person|pax|guests?)` at the current position. -/
def p2Core (s : List Char) : Option Nat :=
  firstSome (fun p => if sfxOk (dropWsStar p.2) then some (natOfDigits p.1) else none)
    (digAlts s)

/-- Match `(?:for\s+)?(\d{1,2})\s*(?:people|person|pax|guests?)` at the current
position: the engine tries the optional `for\s+` group first. -/
def p2At (s : List Char) : Option Nat :=
  ((leadLit ['f', 'o', 'r'] s).bind fun r1 => (wsPlus r1).bind p2Core).orElse fun _ =>
    p2Core s

/-- Match `table\s+for\s+(\d{1,2})` at the current position. -/
def p3At (s : List Char) : Option Nat :=
  (leadLit ['t', 'a', 'b', 'l', 'e'] s).bind fun r1 =>
  (wsPlus r1).bind fun r2 =>
  (leadLit ['f', 'o', 'r'] r2).bind fun r3 =>
  (wsPlus r3).bind fun r4 =>
  firstSome (fun p => some (natOfDigits p.1)) (digAlts r4)

/-- The anchored bare-number pattern `^\s*(\d{1,2})\s*$`. -/
def p4Match (s : List Char) : Option Nat :=
  firstSome (fun p => if (dropWsStar p.2).isEmpty then some (natOfDigits p.1) else none)
    (digAlts (dropWsStar s))

/-- Party-size extraction: first pattern with a match anywhere wins, as in the
source loop over `party_patterns`. -/
def partySizeOf (tl : List Char) : Option Nat :=
  (searchOpt p1At tl).orElse fun _ =>
    (searchOpt p2At tl).orElse fun _ =>
      (searchOpt p3At tl).orElse fun _ => p4Match tl

/-! ### Date patterns (source lines 552-565) -/

def relWords : List (List Char) := ["today".toList, "tomorrow".toList, "tonight".toList]

def dayWords : List (List Char) :=
  ["monday".toList, "tuesday".toList, "wednesday".toList, "thursday".toList,
   "friday".toList, "saturday".toList, "sunday".toList]

def monthWords : List (List Char) :=
  ["january".toList, "february".toList, "march".toList, "april".toList, "may".toList,
   "june".toList, "july".toList, "august".toList, "september".toList, "october".toList,
   "november".toList, "december".toList]

/-- Match the word `w` here with a trailing word boundary, yielding the word. -/
def wordAt (w s : List Char) : Option (List Char) :=
  (leadLit w s).bind fun r => if bOk r then some w else none

/-- Alternation of whole words (leading `\b` handled by the caller). -/
def wordsAt (ws : List (List Char)) (s : List Char) : Option (List Char) :=
  firstSome (fun w => wordAt w s) ws

/-- The `(?:st|nd|rd|th)?\b` tail of the month-day pattern, with the engine
trying the optional suffix before falling back to a bare boundary. -/
def ordSuffixBOk (r : List Char) : Bool :=
  (firstSome
      (fun suf => (leadLit suf r).bind fun r2 => if bOk r2 then some () else none)
      [['s', 't'], ['n', 'd'], ['r', 'd'], ['t', 'h']]).isSome || bOk r

/-- Match `(month)\s+(\d{1,2})(?:st|nd|rd|th)?\b` at the current position,
yielding the stored `"month day"` text. -/
def d3At (s : List Char) : Option (List Char) :=
  (firstSome (fun m => (leadLit m s).map fun r => (m, r)) monthWords).bind fun mr =>
  (wsPlus mr.2).bind fun r2 =>
  (firstSome (fun p => if ordSuffixBOk p.2 then some p.1 else none) (digAlts r2)).map fun ds =>
  mr.1 ++ [' '] ++ ds

/-- Date extraction: relative tokens, then weekday names, then month-day. -/
def dateOf (tl : List Char) : Option (List Char) :=
  match searchOptB (wordsAt relWords) true tl with
  | some w => some w
  | none =>
    match searchOptB (wordsAt dayWords) true tl with
    | some w => some w
    | none => searchOptB d3At true tl

/-! ### Time patterns (source lines 568-583)

Only two patterns exist in the source: `\b(\d{1,2}):(\d{2})\s*(?:am|pm)\b`
and `\b(\d{1,2})\s*(?:am|pm)\b`. -/

/-- Match `(\d{1,2}):(\d{2})\s*(?:am|pm)\b` here, yielding the two digit groups. -/
def t1At (s : List Char) : Option (List Char × List Char) :=
  firstSome
    (fun p =>
      (leadLit [':'] p.2).bind fun r2 =>
      (twoDigits r2).bind fun q =>
      firstSome
        (fun w => (leadLit w (dropWsStar q.2)).bind fun r5 =>
          if bOk r5 then some (p.1, q.1) else none)
        [['a', 'm'], ['p', 'm']])
    (digAlts s)

/-- Match `(\d{1,2})\s*(?:am|pm)\b` here, yielding the literal matched text
(the stored value is `match.group()`). -/
def t2At (s : List Char) : Option (List Char) :=
  firstSome
    (fun p =>
      firstSome
        (fun w => (leadLit w (wsSplit p.2).2).bind fun r3 =>
          if bOk r3 then some (p.1 ++ (wsSplit p.2).1 ++ w) else none)
        [['a', 'm'], ['p', 'm']])
    (digAlts s)

/-- The separate `re.search(r'\b(?:am|pm)\b', text_lower)` of the source. -/
def searchAmpmWord (tl : List Char) : Option (List Char) :=
  searchOptB (wordsAt [['a', 'm'], ['p', 'm']]) true tl

/-- Time extraction: the `H:MM` pattern stores `"H:MM"` and appends the first
standalone am/pm token of the whole text when one exists; otherwise the
`H am/pm` pattern stores its literal match. -/
def timeOf (tl : List Char) : Option (List Char) :=
  match searchOptB t1At true tl with
  | some hm =>
    some (hm.1 ++ [':'] ++ hm.2 ++
      (match searchAmpmWord tl with
       | some ap => [' '] ++ ap
       | none => []))
  | none => searchOptB t2At true tl

/-! ### Name extraction (source lines 586-597) -/

def bookEchoWords : List (List Char) :=
  ["table".toList, "book".toList, "reserve".toList, "party".toList, "people".toList,
   "reservation".toList]

def fillerPhrases : List (List Char) :=
  ["yes".toList, "no".toList, "ok".toList, "okay".toList, "thanks".toList,
   "hello".toList, "hi".toList]

/-- Python truthiness of the `party_size` value (an `int`). -/
def psTruthy : Option Nat → Bool
  | some n => decide (n ≠ 0)
  | none => false

/-- Python truthiness of a stored text slot. -/
def slotTruthy : Option (List Char) → Bool
  | some l => !l.isEmpty
  | none => false

/-- Name heuristic: at most four words, no booking keyword, no digit, longer
than one character once stripped, no other slot already truthy in this call,
and not a conversational filler phrase; the stripped original text is the name. -/
def nameOf (t tl : List Char) (ps : Option Nat) (d tm : Option (List Char)) :
    Option (List Char) :=
  if wordCount true t ≤ 4
      && !(bookEchoWords.any fun k => hasSub k tl)
      && !(t.any isDig)
      && 1 < (trim t).length
      && !(psTruthy ps || slotTruthy d || slotTruthy tm) then
    if fillerPhrases.any (fun p => p == tl) then none else some (trim t)
  else none

/-! ### The extractor -/

/-- Partial slot set returned by one extractor call. -/
structure Details where
  party_size : Option Nat
  date : Option String
  time : Option String
  name : Option String
deriving DecidableEq

/-- Shallow embedding of `extract_booking_details(text)`. -/
def extract_booking_details (t : List Char) : Details :=
  { party_size := partySizeOf (lowStr t),
    date := (dateOf (lowStr t)).map List.asString,
    time := (timeOf (lowStr t)).map List.asString,
    name := (nameOf t (lowStr t) (partySizeOf (lowStr t)) (dateOf (lowStr t))
      (timeOf (lowStr t))).map List.asString }

/-- String-typed wrapper for `extract_booking_details`. -/
def extractS (s : String) : Details := extract_booking_details s.toList

/-! ### Intent classifier (source lines 362-395) -/

inductive Intent
  | booking
  | menu_inquiry
  | info_inquiry
  | general_chat
deriving DecidableEq

/-- The per-caller booking draft (`booking_data` dict): a field that is `some`
is a key present in the dict; a present key may still hold a falsy value
(empty string, or 0 for `party_size`). -/
structure BookingData where
  name : Option String
  party_size : Option Nat
  date : Option String
  time : Option String
deriving DecidableEq

def emptyBD : BookingData := ⟨none, none, none, none⟩

/-- Python `if booking_data:` — the dict is non-empty. -/
def bdNonempty (bd : BookingData) : Bool :=
  bd.name.isSome || bd.party_size.isSome || bd.date.isSome || bd.time.isSome

inductive Slot
  | name
  | party_size
  | date
  | time
deriving DecidableEq

/-- Python truthiness of a stored string slot of the draft. -/
def slotTruthyS : Option String → Bool
  | some s => !s.isEmpty
  | none => false

/-- Python `f in booking_data and booking_data[f]`. -/
def slotFilled (bd : BookingData) : Slot → Bool
  | .name => slotTruthyS bd.name
  | .party_size => psTruthy bd.party_size
  | .date => slotTruthyS bd.date
  | .time => slotTruthyS bd.time

/-- The source's `missing` list, over `required_fields = [name, party_size, date, time]`. -/
def missingSlots (bd : BookingData) : List Slot :=
  [Slot.name, Slot.party_size, Slot.date, Slot.time].filter (fun f => !slotFilled bd f)

def menuKws : List (List Char) :=
  ["menu".toList, "food".toList, "dish".toList, "price".toList, "vegan".toList,
   "vegetarian".toList, "cost".toList, "allergen".toList, "spicy".toList]

def bookingKws : List (List Char) :=
  ["book".toList, "reserve".toList, "table".toList, "reservation".toList]

def infoKws : List (List Char) :=
  ["hours".toList, "open".toList, "close".toList, "location".toList, "address".toList]

/-- Shallow embedding of `classify_intent`: with a non-empty draft the message
is ignored (incomplete draft forces `booking`, complete draft yields
`general_chat`); otherwise keyword families are tried in the source order —
menu, then booking, then the merged hours/location info family. -/
def classify_intent (msg : String) (bd : BookingData) : Intent :=
  if bdNonempty bd then
    if (missingSlots bd).isEmpty then Intent.general_chat else Intent.booking
  else if menuKws.any (fun w => hasSub w (lowStr msg.toList)) then Intent.menu_inquiry
  else if bookingKws.any (fun w => hasSub w (lowStr msg.toList)) then Intent.booking
  else if infoKws.any (fun w => hasSub w (lowStr msg.toList)) then Intent.info_inquiry
  else Intent.general_chat

/-- The keyword families of the no-draft branch in the order the source tests
them, paired with the intent each yields. -/
def keywordFamilies : List (List (List Char) × Intent) :=
  [(menuKws, Intent.menu_inquiry), (bookingKws, Intent.booking), (infoKws, Intent.info_inquiry)]

/-- Walk a family list in order and return the intent of the first family with
a keyword occurring in the message, defaulting to `general_chat`. -/
def firstFamily (m : List Char) : List (List (List Char) × Intent) → Intent
  | [] => Intent.general_chat
  | f :: fs => if f.1.any (fun w => hasSub w m) then f.2 else firstFamily m fs

/-- Independent statement of keyword classification as first-matching family
over the ordered list, for comparison with `classify_intent`. -/
def classifySpecOrder (m : List Char) : Intent :=
  firstFamily m keywordFamilies

/-- Digit-or-whitespace character class, the alphabet of a bare-number message. -/
def dwChar (c : Char) : Bool := isDig c || isWs c

/-! ### Booking store and tool (source lines 254-280 and 331-349) -/

structure BookingEntry where
  name : String
  party_size : Nat
  date : String
  time : String
  phone_number : String
  booking_reference : String
  status : String
deriving DecidableEq

/-- The bookings.json store; `writeFails` models an exception raised while
reading or writing the file (the wall-clock timestamp field is omitted as an
external collaborator). -/
structure Store where
  bookings : List BookingEntry
  writeFails : Bool
deriving DecidableEq

/-- A parsed complete booking payload, the JSON the tool receives. -/
structure DraftData where
  name : String
  party_size : Nat
  date : String
  time : String
  phone_number : String
deriving DecidableEq

/-- Python `f"{n:03d}"`. -/
def pad3 (n : Nat) : String :=
  if n < 10 then "00" ++ Nat.repr n else if n < 100 then "0" ++ Nat.repr n else Nat.repr n

/-- Shallow embedding of `FileDataManager.save_booking`: on an exception the
function swallows the error and returns the sentinel reference "BV999",
leaving the store unchanged. -/
def save_booking (st : Store) (d : DraftData) : Store × String :=
  if st.writeFails then (st, "BV999")
  else
    ({ st with
        bookings := st.bookings ++
          [{ name := d.name, party_size := d.party_size, date := d.date, time := d.time,
             phone_number := d.phone_number,
             booking_reference := "BV" ++ pad3 (st.bookings.length + 1),
             status := "confirmed" }] },
     "BV" ++ pad3 (st.bookings.length + 1))

def capacityMsg (maxGuests : Nat) : String :=
  "Sorry, we can accommodate a maximum of " ++ Nat.repr maxGuests ++
  " guests per reservation."

def confirmMsg (ref : String) (d : DraftData) : String :=
  "Booking confirmed! Reference: " ++ ref ++ ". Table for " ++ Nat.repr d.party_size ++
  " people on " ++ d.date ++ " at " ++ d.time ++ " under " ++ d.name ++ "."

/-- Shallow embedding of `CreateBookingTool._run` on a parsed payload:
validate the party size against the configured maximum, else persist. -/
def create_booking_run (maxGuests : Nat) (st : Store) (d : DraftData) : Store × String :=
  if maxGuests < d.party_size then (st, capacityMsg maxGuests)
  else ((save_booking st d).1, confirmMsg (save_booking st d).2 d)

/-! ### Booking handler (source lines 439-488) -/

/-- Python `booking_data.update(extracted)`: keys present in the extraction
overwrite the draft. -/
def updateBD (bd : BookingData) (d : Details) : BookingData :=
  { name := match d.name with | some v => some v | none => bd.name,
    party_size := match d.party_size with | some v => some v | none => bd.party_size,
    date := match d.date with | some v => some v | none => bd.date,
    time := match d.time with | some v => some v | none => bd.time }

/-- The clarifying question the handler emits for each missing slot. -/
def questionFor : Slot → String
  | .party_size => "How many people will be dining with us?"
  | .date => "What date would you prefer?"
  | .time => "What time works best for you?"
  | .name => "Great! Just need a name for the reservation."

/-- The JSON payload the handler builds for the tool from a complete draft. -/
def toDraft (bd : BookingData) (phone : String) : DraftData :=
  { name := bd.name.getD "", party_size := bd.party_size.getD 0,
    date := bd.date.getD "", time := bd.time.getD "", phone_number := phone }

/-- The draft after merging the current message's extraction. -/
def mergedDraft (bd : BookingData) (msg : String) : BookingData :=
  updateBD bd (extractS msg)

/-- The handler's outbound reply and resulting store, given the merged draft. -/
def bookingReply (maxGuests : Nat) (st : Store) (phone : String) (bd2 : BookingData) :
    String × Store :=
  match missingSlots bd2 with
  | [] =>
    ("Perfect! " ++ (create_booking_run maxGuests st (toDraft bd2 phone)).2,
     (create_booking_run maxGuests st (toDraft bd2 phone)).1)
  | f :: _ => (questionFor f, st)

/-- Shallow embedding of `handle_booking` for a turn with an inbound message:
merge the extraction into the draft, then either finalize or ask for the
first missing slot. Returns (reply, updated draft, updated store). -/
def handle_booking (maxGuests : Nat) (st : Store) (phone msg : String) (bd : BookingData) :
    String × BookingData × Store :=
  ((bookingReply maxGuests st phone (mergedDraft bd msg)).1, mergedDraft bd msg,
   (bookingReply maxGuests st phone (mergedDraft bd msg)).2)

/-! ### Menu RAG query path (source lines 186-218) -/

/-- The similarity-search collaborator at its boundary: a full relevance
ranking per query; `similarity_search(q, k)` returns its first `k` entries. -/
structure MenuIndex where
  ranked : String → List String

/-- State of `MenuRAGSystem` at query time: the in-memory vector store, whether
embeddings initialized, whether the persist directory exists, the outcome of
attempting to load a persisted store (`none` models the constructor raising),
and whether the similarity search itself raises. -/
structure RagEnv where
  vectorstore : Option MenuIndex
  embeddingsOk : Bool
  diskHasPath : Bool
  diskLoad : Option MenuIndex
  searchFails : Bool

def notAvailableMsg : String := "Menu not available - please upload a menu first"

def notLoadedMsg : String := "Menu not loaded. Please upload a menu first."

def searchErrMsg : String := "Error searching menu: similarity search failed"

/-- The similarity search with the outer exception handler of `query_menu`. -/
def runSearch (vs : MenuIndex) (env : RagEnv) (q : String) (k : Nat) : List String :=
  if env.searchFails then [searchErrMsg] else (vs.ranked q).take k

/-- Shallow embedding of `MenuRAGSystem.query_menu`: every control path
returns a list (the Python body catches all exceptions), with the two
sentinel singletons when no index can be obtained. -/
def query_menu (env : RagEnv) (q : String) (k : Nat) : List String :=
  match env.vectorstore with
  | some vs => runSearch vs env q k
  | none =>
    if env.diskHasPath && env.embeddingsOk then
      match env.diskLoad with
      | some vs => runSearch vs env q k
      | none => [notAvailableMsg]
    else [notLoadedMsg]

/-! ### Helper lemmas about the matcher combinators -/

theorem firstSome_eq_some {α β : Type} {f : α → Option β} {l : List α} {b : β}
    (h : firstSome f l = some b) : ∃ a ∈ l, f a = some b := by
  induction l with
  | nil => simp [firstSome] at h
  | cons a as ih =>
    rw [firstSome] at h
    cases hfa : f a with
    | some c =>
      rw [hfa] at h
      exact ⟨a, List.mem_cons_self a as, by rw [hfa]; exact h⟩
    | none =>
      rw [hfa] at h
      obtain ⟨x, hx, hfx⟩ := ih h
      exact ⟨x, List.mem_cons_of_mem a hx, hfx⟩

theorem firstSome_eq_none {α β : Type} {f : α → Option β} {l : List α}
    (h : ∀ a ∈ l, f a = none) : firstSome f l = none := by
  induction l with
  | nil => rfl
  | cons a as ih =>
    rw [firstSome, h a (List.mem_cons_self a as)]
    exact ih fun x hx => h x (List.mem_cons_of_mem a hx)

theorem searchOpt_eq_some {α : Type} {f : List Char → Option α} {l : List Char} {b : α}
    (h : searchOpt f l = some b) : ∃ s, f s = some b := by
  induction l with
  | nil => exact ⟨[], by simpa [searchOpt] using h⟩
  | cons c cs ih =>
    rw [searchOpt] at h
    cases hf : f (c :: cs) with
    | some a =>
      rw [hf] at h
      exact ⟨c :: cs, by rw [hf]; exact h⟩
    | none =>
      rw [hf] at h
      exact ih h

theorem searchOpt_none_of_all {α : Type} {P : Char → Bool} {f : List Char → Option α}
    (hf : ∀ s : List Char, s.all P = true → f s = none) :
    ∀ {l : List Char}, l.all P = true → searchOpt f l = none := by
  intro l
  induction l with
  | nil =>
    intro _
    rw [searchOpt]
    exact hf [] rfl
  | cons c cs ih =>
    intro h
    rw [searchOpt, hf (c :: cs) h]
    simp only [List.all_cons, Bool.and_eq_true] at h
    exact ih h.2

theorem digVal_le_of_isDig {c : Char} (h : isDig c = true) : digVal c ≤ 9 := by
  simp only [isDig, Bool.and_eq_true, decide_eq_true_eq] at h
  unfold digVal
  omega

theorem natOfDigits_single (c : Char) : natOfDigits [c] = digVal c := by
  simp [natOfDigits]

theorem natOfDigits_pair (c1 c2 : Char) :
    natOfDigits [c1, c2] = digVal c1 * 10 + digVal c2 := by
  simp [natOfDigits]

theorem digAlts_mem_le {s : List Char} {p : List Char × List Char}
    (hp : p ∈ digAlts s) : natOfDigits p.1 ≤ 99 := by
  rcases s with _ | ⟨c1, _ | ⟨c2, r⟩⟩
  · simp [digAlts] at hp
  · cases hd : isDig c1 <;> simp [digAlts, hd] at hp
    rw [hp, natOfDigits_single]
    have := digVal_le_of_isDig hd
    omega
  · cases hd1 : isDig c1 <;> simp [digAlts, hd1] at hp
    cases hd2 : isDig c2 <;> simp [hd2] at hp
    · rw [hp, natOfDigits_single]
      have := digVal_le_of_isDig hd1
      omega
    · have b1 := digVal_le_of_isDig hd1
      have b2 := digVal_le_of_isDig hd2
      rcases hp with hp | hp <;> rw [hp]
      · rw [natOfDigits_pair]
        omega
      · rw [natOfDigits_single]
        omega

theorem digAlts_all {P : Char → Bool} {s : List Char} (hs : s.all P = true)
    {p : List Char × List Char} (hp : p ∈ digAlts s) : p.2.all P = true := by
  rcases s with _ | ⟨c1, _ | ⟨c2, r⟩⟩
  · simp [digAlts] at hp
  · cases hd : isDig c1 <;> simp [digAlts, hd] at hp
    rw [hp]
    rfl
  · simp only [List.all_cons, Bool.and_eq_true] at hs
    cases hd1 : isDig c1 <;> simp [digAlts, hd1] at hp
    cases hd2 : isDig c2 <;> simp [hd2] at hp
    · rw [hp]
      simp [List.all_cons, hs.2.1, hs.2.2]
    · rcases hp with hp | hp <;> rw [hp]
      · simp [hs.2.2]
      · simp [List.all_cons, hs.2.1, hs.2.2]

theorem leadLit_none_of_all {P : Char → Bool} {w0 : Char} {ws s : List Char}
    (hw : P w0 = false) (hs : s.all P = true) : leadLit (w0 :: ws) s = none := by
  cases s with
  | nil => rfl
  | cons c cs =>
    have hne : ¬ (c = w0) := by
      intro hce
      rw [hce] at hs
      simp [List.all_cons, hw] at hs
    rw [leadLit, if_neg hne]

theorem dropWsStar_all {P : Char → Bool} :
    ∀ {s : List Char}, s.all P = true → (dropWsStar s).all P = true := by
  intro s
  induction s with
  | nil => intro h; exact h
  | cons c cs ih =>
    intro h
    rw [dropWsStar]
    split
    · simp only [List.all_cons, Bool.and_eq_true] at h
      exact ih h.2
    · exact h

theorem dropWsStar_append_of_ws {w : List Char} (h : w.all isWs = true) :
    ∀ r : List Char, dropWsStar (w ++ r) = dropWsStar r := by
  induction w with
  | nil => intro r; rfl
  | cons c cs ih =>
    intro r
    simp only [List.all_cons, Bool.and_eq_true] at h
    rw [List.cons_append, dropWsStar, if_pos h.1]
    exact ih h.2 r

theorem dropWsStar_ws_nil {w : List Char} (h : w.all isWs = true) : dropWsStar w = [] := by
  have h2 := dropWsStar_append_of_ws h []
  simpa using h2

theorem dropWsStar_cons_of_not_ws {c : Char} {cs : List Char} (h : isWs c = false) :
    dropWsStar (c :: cs) = c :: cs := by
  rw [dropWsStar, if_neg]
  simp [h]

theorem isDig_not_ws {c : Char} (h : isDig c = true) : isWs c = false := by
  cases hw : isWs c with
  | false => rfl
  | true =>
    exfalso
    simp only [isDig, Bool.and_eq_true, decide_eq_true_eq] at h
    simp only [isWs, Bool.or_eq_true, decide_eq_true_eq] at hw
    omega

theorem isWs_not_dig {c : Char} (h : isWs c = true) : isDig c = false := by
  cases hd : isDig c with
  | false => rfl
  | true =>
    exfalso
    simp only [isDig, Bool.and_eq_true, decide_eq_true_eq] at hd
    simp only [isWs, Bool.or_eq_true, decide_eq_true_eq] at h
    omega

theorem lowChar_eq_of_isWs {c : Char} (h : isWs c = true) : lowChar c = c := by
  simp only [isWs, Bool.or_eq_true, decide_eq_true_eq] at h
  have hc : ¬ ((65 ≤ c.toNat && c.toNat ≤ 90) = true) := by
    simp only [Bool.and_eq_true, decide_eq_true_eq, not_and]
    intro h1
    omega
  rw [lowChar, if_neg hc]

theorem lowChar_eq_of_isDig {c : Char} (h : isDig c = true) : lowChar c = c := by
  simp only [isDig, Bool.and_eq_true, decide_eq_true_eq] at h
  have hc : ¬ ((65 ≤ c.toNat && c.toNat ≤ 90) = true) := by
    simp only [Bool.and_eq_true, decide_eq_true_eq, not_and]
    intro h1
    omega
  rw [lowChar, if_neg hc]

theorem lowStr_eq_self {l : List Char} (h : ∀ c ∈ l, lowChar c = c) : lowStr l = l := by
  induction l with
  | nil => rfl
  | cons c cs ih =>
    rw [lowStr, List.map_cons, h c (List.mem_cons_self c cs)]
    have h2 := ih fun x hx => h x (List.mem_cons_of_mem c hx)
    rw [lowStr] at h2
    rw [h2]

theorem someOrElse {α : Type} (a : α) (f : Unit → Option α) :
    (some a).orElse f = some a := rfl

theorem noneOrElse {α : Type} (f : Unit → Option α) :
    (Option.none).orElse f = f () := rfl

/-! ### Bounds on the party-size patterns (two captured digits at most) -/

theorem p1At_le {s : List Char} {n : Nat} (h : p1At s = some n) : n ≤ 99 := by
  rw [p1At, Option.bind_eq_some] at h
  obtain ⟨r1, -, h⟩ := h
  rw [Option.bind_eq_some] at h
  obtain ⟨r2, -, h⟩ := h
  rw [Option.bind_eq_some] at h
  obtain ⟨r3, -, h⟩ := h
  rw [Option.bind_eq_some] at h
  obtain ⟨r4, -, h⟩ := h
  obtain ⟨p, hp, hfp⟩ := firstSome_eq_some h
  have hfp2 : some (natOfDigits p.1) = some n := hfp
  injection hfp2 with h2
  rw [← h2]
  exact digAlts_mem_le hp

theorem p2Core_le {s : List Char} {n : Nat} (h : p2Core s = some n) : n ≤ 99 := by
  rw [p2Core] at h
  obtain ⟨p, hp, hfp⟩ := firstSome_eq_some h
  have hfp2 : (if sfxOk (dropWsStar p.2) then some (natOfDigits p.1) else none) = some n := hfp
  split at hfp2
  · injection hfp2 with h2
    rw [← h2]
    exact digAlts_mem_le hp
  · cases hfp2

theorem p2At_le {s : List Char} {n : Nat} (h : p2At s = some n) : n ≤ 99 := by
  rw [p2At] at h
  cases hl : ((leadLit ['f', 'o', 'r'] s).bind fun r1 => (wsPlus r1).bind p2Core) with
  | some m =>
    rw [hl, someOrElse] at h
    injection h with h2
    rw [Option.bind_eq_some] at hl
    obtain ⟨r1, -, hl⟩ := hl
    rw [Option.bind_eq_some] at hl
    obtain ⟨r2, -, hl⟩ := hl
    rw [← h2]
    exact p2Core_le hl
  | none =>
    rw [hl, noneOrElse] at h
    exact p2Core_le h

theorem p3At_le {s : List Char} {n : Nat} (h : p3At s = some n) : n ≤ 99 := by
  rw [p3At, Option.bind_eq_some] at h
  obtain ⟨r1, -, h⟩ := h
  rw [Option.bind_eq_some] at h
  obtain ⟨r2, -, h⟩ := h
  rw [Option.bind_eq_some] at h
  obtain ⟨r3, -, h⟩ := h
  rw [Option.bind_eq_some] at h
  obtain ⟨r4, -, h⟩ := h
  obtain ⟨p, hp, hfp⟩ := firstSome_eq_some h
  have hfp2 : some (natOfDigits p.1) = some n := hfp
  injection hfp2 with h2
  rw [← h2]
  exact digAlts_mem_le hp

theorem p4Match_le {s : List Char} {n : Nat} (h : p4Match s = some n) : n ≤ 99 := by
  rw [p4Match] at h
  obtain ⟨p, hp, hfp⟩ := firstSome_eq_some h
  have hfp2 : (if (dropWsStar p.2).isEmpty then some (natOfDigits p.1) else none) = some n := hfp
  split at hfp2
  · injection hfp2 with h2
    rw [← h2]
    exact digAlts_mem_le hp
  · cases hfp2

theorem partySizeOf_le {tl : List Char} {n : Nat} (h : partySizeOf tl = some n) : n ≤ 99 := by
  rw [partySizeOf] at h
  cases h1 : searchOpt p1At tl with
  | some m =>
    rw [h1, someOrElse] at h
    injection h with h2
    obtain ⟨s, hs⟩ := searchOpt_eq_some h1
    rw [← h2]
    exact p1At_le hs
  | none =>
    rw [h1, noneOrElse] at h
    cases h2 : searchOpt p2At tl with
    | some m =>
      rw [h2, someOrElse] at h
      injection h with h3
      obtain ⟨s, hs⟩ := searchOpt_eq_some h2
      rw [← h3]
      exact p2At_le hs
    | none =>
      rw [h2, noneOrElse] at h
      cases h3 : searchOpt p3At tl with
      | some m =>
        rw [h3, someOrElse] at h
        injection h with h4
        obtain ⟨s, hs⟩ := searchOpt_eq_some h3
        rw [← h4]
        exact p3At_le hs
      | none =>
        rw [h3, noneOrElse] at h
        exact p4Match_le h

/-! ### A digit-and-whitespace message matches no wordy party pattern -/

theorem p1At_none_dw {s : List Char} (h : s.all dwChar = true) : p1At s = none := by
  rw [p1At, @leadLit_none_of_all dwChar 'p' ['a', 'r', 't', 'y'] s (by decide) h]
  rfl

theorem sfxOk_none_dw {s : List Char} (h : s.all dwChar = true) : sfxOk s = false := by
  rw [sfxOk,
    @leadLit_none_of_all dwChar 'p' ['e', 'o', 'p', 'l', 'e'] s (by decide) h,
    @leadLit_none_of_all dwChar 'p' ['e', 'r', 's', 'o', 'n'] s (by decide) h,
    @leadLit_none_of_all dwChar 'p' ['a', 'x'] s (by decide) h,
    @leadLit_none_of_all dwChar 'g' ['u', 'e', 's', 't'] s (by decide) h]
  rfl

theorem p2Core_none_dw {s : List Char} (h : s.all dwChar = true) : p2Core s = none := by
  rw [p2Core]
  apply firstSome_eq_none
  intro p hp
  rw [sfxOk_none_dw (dropWsStar_all (digAlts_all h hp))]
  rfl

theorem p2At_none_dw {s : List Char} (h : s.all dwChar = true) : p2At s = none := by
  rw [p2At, @leadLit_none_of_all dwChar 'f' ['o', 'r'] s (by decide) h,
    Option.none_bind, noneOrElse]
  exact p2Core_none_dw h

theorem p3At_none_dw {s : List Char} (h : s.all dwChar = true) : p3At s = none := by
  rw [p3At, @leadLit_none_of_all dwChar 't' ['a', 'b', 'l', 'e'] s (by decide) h]
  rfl

/-! ### The bare-number pattern on a whitespace-digits-whitespace message -/

theorem p4Match_bare (w1 ds w2 : List Char)
    (h1 : w1.all isWs = true) (h2 : w2.all isWs = true) (h3 : ds.all isDig = true)
    (h4 : ds ≠ []) (h5 : ds.length ≤ 2) :
    p4Match (w1 ++ (ds ++ w2)) = some (natOfDigits ds) := by
  rw [p4Match, dropWsStar_append_of_ws h1]
  rcases ds with _ | ⟨d0, tail⟩
  · exact absurd rfl h4
  rcases tail with _ | ⟨d1, tail2⟩
  · simp only [List.all_cons, List.all_nil, Bool.and_true] at h3
    rw [List.cons_append, List.nil_append,
      dropWsStar_cons_of_not_ws (isDig_not_ws h3)]
    rcases w2 with _ | ⟨e, w2t⟩
    · rw [digAlts, if_pos h3]
      rfl
    · have he : isWs e = true := by
        simp only [List.all_cons, Bool.and_eq_true] at h2
        exact h2.1
      rw [digAlts, if_pos h3, if_neg (by simp [isWs_not_dig he])]
      rw [firstSome]
      have hde : dropWsStar (e :: w2t) = [] := dropWsStar_ws_nil h2
      simp [hde]
  · rcases tail2 with _ | ⟨d2, tail3⟩
    · simp only [List.all_cons, List.all_nil, Bool.and_true, Bool.and_eq_true] at h3
      rw [List.cons_append, List.cons_append, List.nil_append,
        dropWsStar_cons_of_not_ws (isDig_not_ws h3.1)]
      rw [digAlts, if_pos h3.1, if_pos h3.2]
      rw [firstSome]
      have hdw : dropWsStar w2 = [] := dropWsStar_ws_nil h2
      simp [hdw]
    · exfalso
      simp only [List.length_cons] at h5
      omega

theorem partySize_bare (w1 ds w2 : List Char)
    (h1 : w1.all isWs = true) (h2 : w2.all isWs = true) (h3 : ds.all isDig = true)
    (h4 : ds ≠ []) (h5 : ds.length ≤ 2) :
    partySizeOf (w1 ++ (ds ++ w2)) = some (natOfDigits ds) := by
  have hall : (w1 ++ (ds ++ w2)).all dwChar = true := by
    rw [List.all_eq_true]
    intro c hc
    rw [List.all_eq_true] at h1 h2 h3
    simp only [List.mem_append] at hc
    rcases hc with hc | hc | hc
    · simp [dwChar, h1 c hc]
    · simp [dwChar, h3 c hc]
    · simp [dwChar, h2 c hc]
  simp only [partySizeOf,
    searchOpt_none_of_all (fun s hs => p1At_none_dw hs) hall,
    searchOpt_none_of_all (fun s hs => p2At_none_dw hs) hall,
    searchOpt_none_of_all (fun s hs => p3At_none_dw hs) hall,
    noneOrElse]
  exact p4Match_bare w1 ds w2 h1 h2 h3 h4 h5

/-! ### Claim theorems -/

/-- C1, counterexample: with a complete draft, `classify_intent` returns
`general_chat` even for a message that keyword classification with no draft
sends to `menu_inquiry`, so normal keyword classification does not resume. -/
theorem c1_counterexample :
    classify_intent "menu"
        { name := some "jo", party_size := some 2, date := some "friday",
          time := some "7 pm" } = Intent.general_chat ∧
    classify_intent "menu" emptyBD = Intent.menu_inquiry ∧
    Intent.general_chat ≠ Intent.menu_inquiry :=
  ⟨by decide, by decide, by decide⟩

/-- C1, amended: for a non-empty draft the classifier ignores the message
entirely — an incomplete draft forces `booking`, and a complete draft forces
`general_chat` (not the intent keyword classification would assign). -/
theorem c1_amended (msg : String) (bd : BookingData) (h : bdNonempty bd = true) :
    (missingSlots bd ≠ [] → classify_intent msg bd = Intent.booking) ∧
    (missingSlots bd = [] → classify_intent msg bd = Intent.general_chat) := by
  constructor
  · intro h2
    have hne : ¬ ((missingSlots bd).isEmpty = true) := by
      simpa [List.isEmpty_iff] using h2
    rw [classify_intent, if_pos h, if_neg hne]
  · intro h2
    have he : (missingSlots bd).isEmpty = true := by
      simp [List.isEmpty_iff, h2]
    rw [classify_intent, if_pos h, if_pos he]

/-- C1, witness: an incomplete draft holding only `party_size` forces `booking`
even on a message full of menu keywords. -/
theorem c1_witness :
    bdNonempty { name := none, party_size := some 2, date := none, time := none } = true ∧
    classify_intent "what is on the menu"
      { name := none, party_size := some 2, date := none, time := none } = Intent.booking :=
  ⟨by decide,
   (c1_amended "what is on the menu"
     { name := none, party_size := some 2, date := none, time := none } (by decide)).1
     (by decide)⟩

/-- C2, counterexample: a message with both a booking keyword and a menu
keyword is classified `menu_inquiry`, not `booking` — the source tests the
menu family first. -/
theorem c2_counterexample :
    classify_intent "Can I book a table and also see the menu?" emptyBD =
      Intent.menu_inquiry ∧
    Intent.menu_inquiry ≠ Intent.booking :=
  ⟨by decide, by decide⟩

/-- C2, amended: with no draft, classification is the first matching keyword
family in the order menu > booking > info (hours and location are merged into
a single `info_inquiry` family over hours/open/close/location/address),
defaulting to `general_chat`; a message with both booking and menu keywords is
`menu_inquiry`. -/
theorem c2_amended :
    (∀ msg : String, classify_intent msg emptyBD = classifySpecOrder (lowStr msg.toList)) ∧
    classify_intent "Can I book a table and also see the menu?" emptyBD =
      Intent.menu_inquiry := by
  constructor
  · intro msg
    cases h1 : menuKws.any (fun w => hasSub w (lowStr msg.toList)) <;>
    cases h2 : bookingKws.any (fun w => hasSub w (lowStr msg.toList)) <;>
    cases h3 : infoKws.any (fun w => hasSub w (lowStr msg.toList)) <;>
    simp only [classify_intent, classifySpecOrder, keywordFamilies, firstFamily,
      emptyBD, bdNonempty, Option.isSome_none, Bool.or_self, Bool.false_eq_true,
      h1, h2, h3, eq_self_iff_true, if_true, if_false]
  · decide

/-- C3, counterexample: the extractor does not parse `label: value` field
markers — on "Name: Jo\nParty size: 2" it returns no slots at all, not
name "jo" with party size 2. -/
theorem c3_counterexample :
    extractS "Name: Jo\nParty size: 2" =
      { party_size := none, date := none, time := none, name := none } ∧
    ¬ ((extractS "Name: Jo\nParty size: 2").name = some "jo" ∧
       (extractS "Name: Jo\nParty size: 2").party_size = some 2) :=
  ⟨by decide, by decide⟩

/-- C3, amended: there is no template mode in `extract_booking_details`; an
input carrying explicit field markers falls through the free-text heuristics,
and "Name: Jo\nParty size: 2" yields the empty slot set. -/
theorem c3_amended :
    extractS "Name: Jo\nParty size: 2" =
      { party_size := none, date := none, time := none, name := none } := by
  decide

/-- C4, code bug: when the booking-store write fails, the tool still reports
"Booking confirmed! Reference: BV999. …" — a success message with the
sentinel reference — while no record is persisted, instead of the generic
failure message the spec requires. -/
theorem c4_false_success :
    create_booking_run 20 { bookings := [], writeFails := true }
        { name := "Jo", party_size := 2, date := "friday", time := "7 pm",
          phone_number := "p1" } =
      ({ bookings := [], writeFails := true },
       "Booking confirmed! Reference: BV999. Table for 2 people on friday at 7 pm under Jo.") := by
  decide

/-- C5: a booking turn whose merged draft still misses at least one slot emits
exactly one clarifying question, the one for the first missing slot in the
fixed order [name, party_size, date, time]. -/
theorem c5_first_missing_question (maxGuests : Nat) (st : Store) (phone msg : String)
    (bd : BookingData) (f : Slot) (fs : List Slot)
    (h : missingSlots (mergedDraft bd msg) = f :: fs) :
    (handle_booking maxGuests st phone msg bd).1 = questionFor f := by
  show (bookingReply maxGuests st phone (mergedDraft bd msg)).1 = questionFor f
  rw [bookingReply, h]

/-- C5, witness: with only `party_size` filled and an uninformative message,
the handler asks for the name — the first slot of the fixed order. -/
theorem c5_witness :
    missingSlots (mergedDraft
        { name := none, party_size := some 4, date := none, time := none } "hello") =
      [Slot.name, Slot.date, Slot.time] ∧
    (handle_booking 20 { bookings := [], writeFails := false } "p1" "hello"
        { name := none, party_size := some 4, date := none, time := none }).1 =
      questionFor Slot.name :=
  ⟨by decide,
   c5_first_missing_question 20 { bookings := [], writeFails := false } "p1" "hello"
     { name := none, party_size := some 4, date := none, time := none } Slot.name
     [Slot.date, Slot.time] (by decide)⟩

/-- C6: a draft over the configured maximum is rejected with a message naming
the maximum and the store is untouched; a draft within the maximum (when the
store write does not fail, compare C4) appends exactly one confirmed record
and returns the success message embedding the generated reference. -/
theorem c6_capacity (maxGuests : Nat) (st : Store) (d : DraftData) :
    (maxGuests < d.party_size →
      create_booking_run maxGuests st d = (st, capacityMsg maxGuests)) ∧
    (d.party_size ≤ maxGuests → st.writeFails = false →
      create_booking_run maxGuests st d =
        ({ st with
            bookings := st.bookings ++
              [{ name := d.name, party_size := d.party_size, date := d.date, time := d.time,
                 phone_number := d.phone_number,
                 booking_reference := "BV" ++ pad3 (st.bookings.length + 1),
                 status := "confirmed" }] },
         confirmMsg ("BV" ++ pad3 (st.bookings.length + 1)) d)) := by
  constructor
  · intro h
    rw [create_booking_run, if_pos h]
  · intro hle hwf
    have hgt : ¬ (maxGuests < d.party_size) := by omega
    rw [create_booking_run, if_neg hgt, save_booking, if_neg (by simp [hwf])]

/-- C6, witness: with maximum 20, a party of 25 is rejected naming the limit
and a party of 4 is persisted with reference BV001. -/
theorem c6_witness :
    (20 < 25 ∧
      create_booking_run 20 { bookings := [], writeFails := false }
          { name := "Jo", party_size := 25, date := "friday", time := "7 pm",
            phone_number := "p1" } =
        ({ bookings := [], writeFails := false }, capacityMsg 20)) ∧
    (4 ≤ 20 ∧
      create_booking_run 20 { bookings := [], writeFails := false }
          { name := "Jo", party_size := 4, date := "friday", time := "7 pm",
            phone_number := "p1" } =
        ({ bookings :=
              [⟨"Jo", 4, "friday", "7 pm", "p1", "BV001", "confirmed"⟩],
           writeFails := false },
         "Booking confirmed! Reference: BV001. Table for 4 people on friday at 7 pm under Jo.")) :=
  ⟨⟨by decide, (c6_capacity 20 _ _).1 (by decide)⟩,
   ⟨by decide, (c6_capacity 20 _ _).2 (by decide) rfl⟩⟩

/-- C7, counterexample: the party-size value is not always between 1 and 99 —
"party of 0" extracts party_size 0. -/
theorem c7_counterexample :
    (extractS "party of 0").party_size = some 0 ∧ ¬ (1 ≤ 0) :=
  ⟨by decide, by decide⟩

/-- C7, amended: the ordered free-text party-size patterns capture at most two
digits, so the extracted value is an integer between 0 and 99 (0 attainable)
equal to the matched digits, and "table for 4" extracts party_size 4. -/
theorem c7_amended :
    (∀ (t : List Char) (n : Nat), (extract_booking_details t).party_size = some n → n ≤ 99) ∧
    (extractS "table for 4").party_size = some 4 := by
  constructor
  · intro t n h
    have h2 : partySizeOf (lowStr t) = some n := h
    exact partySizeOf_le h2
  · decide

/-- C7, witness: applying the bound at "party of 31". -/
theorem c7_witness :
    (extractS "party of 31").party_size = some 31 ∧ 31 ≤ 99 :=
  ⟨by decide, c7_amended.1 "party of 31".toList 31 (by decide)⟩

/-- C8, counterexample: a bare "H:MM" time with no am/pm, and the word "noon",
yield no time slot — those patterns do not exist in the source. -/
theorem c8_counterexample :
    (extractS "19:30").time = none ∧ (extractS "noon").time = none :=
  ⟨by decide, by decide⟩

/-- C8, amended: time extraction tries only "H:MM am/pm" then bare "H am/pm";
bare "H:MM" and "noon"/"midnight" yield no time slot, and an "H:MM" match
stores "H:MM" with the first standalone am/pm token of the message appended
only when one exists. -/
theorem c8_amended :
    (extractS "19:30").time = none ∧
    (extractS "noon").time = none ∧
    (extractS "midnight").time = none ∧
    (extractS "at 7:30 pm").time = some "7:30 pm" ∧
    (extractS "dinner at 8pm").time = some "8pm" ∧
    (extractS "7:30pm til late").time = some "7:30" :=
  ⟨by decide, by decide, by decide, by decide, by decide, by decide⟩

/-- C9: with no in-memory index and no loadable persisted index, `query_menu`
returns a single sentinel result (and, being a total function, never raises);
with an index and a working search it returns the first `k` ranked passages,
hence at most `k` of them, in ranking order. -/
theorem c9_query (env : RagEnv) (q : String) (k : Nat) :
    (env.vectorstore = none → (env.diskHasPath && env.embeddingsOk) = true →
      env.diskLoad = none → query_menu env q k = [notAvailableMsg]) ∧
    (env.vectorstore = none → (env.diskHasPath && env.embeddingsOk) = false →
      query_menu env q k = [notLoadedMsg]) ∧
    (∀ vs : MenuIndex, env.vectorstore = some vs → env.searchFails = false →
      query_menu env q k = (vs.ranked q).take k ∧ (query_menu env q k).length ≤ k) := by
  refine ⟨?_, ?_, ?_⟩
  · intro h1 h2 h3
    simp [query_menu, h1, h2, h3]
  · intro h1 h2
    simp [query_menu, h1, h2]
  · intro vs h1 h2
    have hq : query_menu env q k = (vs.ranked q).take k := by
      simp [query_menu, h1, runSearch, h2]
    refine ⟨hq, ?_⟩
    rw [hq, List.length_take]
    exact min_le_left _ _

/-- C9, witness: a fresh environment yields the sentinel, and a loaded
three-passage index truncates to the requested two. -/
theorem c9_witness :
    query_menu ⟨none, true, true, none, false⟩ "pasta" 3 = [notAvailableMsg] ∧
    query_menu ⟨some ⟨fun _ => ["a", "b", "c"]⟩, true, true, none, false⟩ "pasta" 2 =
      ((⟨fun _ => ["a", "b", "c"]⟩ : MenuIndex).ranked "pasta").take 2 :=
  ⟨(c9_query _ "pasta" 3).1 rfl rfl rfl,
   ((c9_query _ "pasta" 2).2.2 _ rfl rfl).1⟩

/-- C10: a message whose trimmed text is a bare one- or two-digit number
(0 included) sets `party_size` to that number through the fourth, bare-number
pattern, and the message is never taken as a name (the digit gate). -/
theorem c10_bare_number (w1 ds w2 : List Char)
    (h1 : w1.all isWs = true) (h2 : w2.all isWs = true) (h3 : ds.all isDig = true)
    (h4 : ds ≠ []) (h5 : ds.length ≤ 2) :
    (extract_booking_details (w1 ++ (ds ++ w2))).party_size = some (natOfDigits ds) ∧
    (extract_booking_details (w1 ++ (ds ++ w2))).name = none := by
  have hlowid : lowStr (w1 ++ (ds ++ w2)) = w1 ++ (ds ++ w2) := by
    apply lowStr_eq_self
    intro c hc
    rw [List.all_eq_true] at h1 h2 h3
    simp only [List.mem_append] at hc
    rcases hc with hc | hc | hc
    · exact lowChar_eq_of_isWs (h1 c hc)
    · exact lowChar_eq_of_isDig (h3 c hc)
    · exact lowChar_eq_of_isWs (h2 c hc)
  have hdig : (w1 ++ (ds ++ w2)).any isDig = true := by
    rcases ds with _ | ⟨d0, tail⟩
    · exact absurd rfl h4
    · rw [List.any_eq_true]
      rw [List.all_eq_true] at h3
      exact ⟨d0, by simp, h3 d0 (by simp)⟩
  constructor
  · show partySizeOf (lowStr (w1 ++ (ds ++ w2))) = some (natOfDigits ds)
    rw [hlowid]
    exact partySize_bare w1 ds w2 h1 h2 h3 h4 h5
  · show (nameOf (w1 ++ (ds ++ w2)) (lowStr (w1 ++ (ds ++ w2)))
        (partySizeOf (lowStr (w1 ++ (ds ++ w2)))) (dateOf (lowStr (w1 ++ (ds ++ w2))))
        (timeOf (lowStr (w1 ++ (ds ++ w2))))).map List.asString = none
    simp [nameOf, hdig]

/-- C10, witness: the message " 0" extracts party_size 0 and no name. -/
theorem c10_witness :
    (extract_booking_details ([' '] ++ (['0'] ++ []))).party_size =
      some (natOfDigits ['0']) ∧
    (extract_booking_details ([' '] ++ (['0'] ++ []))).name = none :=
  c10_bare_number [' '] ['0'] [] (by decide) (by decide) (by decide) (by decide) (by decide)
